import Mathlib

/-!
Verification of the gpustat-web monitoring core (`src/gpustat_web/app.py`).

The embedding below follows the source directly:

* `Context.host_status` is a Python `OrderedDict` mapping host names to
  record strings; we embed it as an association list `Store` whose update
  operation replaces an existing key in place (preserving insertion order)
  and appends a fresh key at the end — exactly `OrderedDict.__setitem__`.
* `colored` is `termcolor.colored`, which wraps text in ANSI SGR escapes.
* `host_set_message` is `Context.host_set_message` (app.py line 30).
* `run_client` (app.py lines 38-70) is embedded as a state machine: each
  completed remote command, session disconnection, or other exception is an
  event, and `run_client_step` performs the store write / state transition
  the corresponding branch of the source performs.
* `render_body` is the accumulation loop of `render_gpustat_body`
  (app.py lines 98-104); the external `ansi2html` conversion, applied once
  to the accumulated text, is kept as an explicit function parameter.
* `handle_websocketmessage` is `_handle_websocketmessage` inside
  `websocket_handler` (app.py lines 167-173).
-/

namespace GpustatWeb

/-- ANSI SGR codes used by `termcolor.colored` for the color names this
program passes (`white`, `red`, `yellow`, `cyan`). -/
def colorCode : String → String
  | "red" => "31"
  | "green" => "32"
  | "yellow" => "33"
  | "cyan" => "36"
  | "white" => "37"
  | _ => "0"

/-- `termcolor.colored text color`: wrap `text` in the ANSI escape for
`color` followed by the reset escape. -/
def colored (text color : String) : String :=
  "\x1b[" ++ colorCode color ++ "m" ++ text ++ "\x1b[0m"

/-- `Context.host_status`: an insertion-ordered mapping from host name to
that host's latest record string (`OrderedDict` in the source). -/
abbrev Store := List (String × String)

/-- `store[host] = v` on an `OrderedDict`: replace the value of an existing
key in place (keeping its position), otherwise append the new key at the
end. -/
def storeSet : Store → String → String → Store
  | [], host, v => [(host, v)]
  | p :: rest, host, v =>
    if p.1 = host then (host, v) :: rest else p :: storeSet rest host v

/-- `store.get(host)`: the record currently held for `host`, if any. -/
def storeGet : Store → String → Option String
  | [], _ => none
  | p :: rest, host => if p.1 = host then some p.2 else storeGet rest host

/-- The key sequence of the store, in registration order. -/
def storeKeys (store : Store) : List String :=
  store.map Prod.fst

/-- `Context.host_set_message` (app.py line 30): store
`colored(f"({host}) ", 'white') + msg + '\n'` as `host`'s record. -/
def host_set_message (store : Store) (host msg : String) : Store :=
  storeSet store host (colored ("(" ++ host ++ ") ") "white" ++ msg ++ "\n")

/-- The white-colored `"(host) "` prefix `host_set_message` prepends. -/
def hostPrefix (host : String) : String :=
  colored ("(" ++ host ++ ") ") "white"

/-- `s` carries the per-host prefix identifying `host` at its start. -/
def hasHostPrefix (host s : String) : Prop :=
  ∃ rest, s = hostPrefix host ++ rest

/-- One observable event in a host monitor's lifecycle:
a completed remote command (`conn.run`, app.py line 50) with its exit
status and stdout, an `asyncssh.misc.DisconnectError` raised by the session
(an SSH-protocol-level disconnect, at handshake time or during polling), or
any other exception — which the `except` clause of `run_client` (app.py
line 64) does not catch. The latter category includes the socket-level
errors (`ConnectionRefusedError` / `OSError` / `socket.gaierror`) that
`asyncssh.connect` raises when the host is unreachable at connect time. -/
inductive ClientEvent where
  | poll (exitStatus : Nat) (stdout : String)
  | disconnect (err : String)
  | other (err : String)
deriving DecidableEq

/-- The control state of one `run_client` coroutine: still in its polling
loop, terminated through the `except DisconnectError` handler, or
terminated by an uncaught exception propagating out. -/
inductive MonState where
  | running
  | failed
  | crashed
deriving DecidableEq

/-- One step of `run_client host` (app.py lines 38-70): the store write and
state transition performed for one event.

* success exit (`exit_status == 0`): `context.host_status[host] = result.stdout`
  (line 59);
* nonzero exit: only `cprint` runs — the store is untouched (lines 53-54);
* `DisconnectError`: `context.host_set_message(host, colored(str(ex), 'red'))`
  (line 66), then the coroutine ends;
* any other exception: uncaught, the coroutine ends with no store write.

A terminated coroutine executes no further code, so in a terminal state
every event leaves the store unchanged. -/
def run_client_step (host : String) (store : Store) (st : MonState)
    (ev : ClientEvent) : Store × MonState :=
  match st with
  | .running =>
    match ev with
    | .poll exitStatus stdout =>
      if exitStatus ≠ 0 then (store, .running)
      else (storeSet store host stdout, .running)
    | .disconnect err =>
      (host_set_message store host (colored err "red"), .failed)
    | .other _ => (store, .crashed)
  | st => (store, st)

/-- Run `run_client host` over a whole sequence of events. -/
def run_client_trace (host : String) (init : Store × MonState)
    (evs : List ClientEvent) : Store × MonState :=
  evs.foldl (fun p ev => run_client_step host p.1 p.2 ev) init

/-- The initial-response loop of `spawn_clients` (app.py lines 75-76):
write the `"Loading ..."` placeholder for each configured host in order. -/
def spawn_clients_init (hosts : List String) (store : Store) : Store :=
  hosts.foldl (fun s h => host_set_message s h "Loading ...") store

/-- The placeholder record `spawn_clients` registers for `host`. -/
def placeholderLine (host : String) : String :=
  hostPrefix host ++ "Loading ..." ++ "\n"

/-- The accumulation loop of `render_gpustat_body` (app.py lines 99-103):
iterate the store in order, skip falsy (empty) records, and append each
remaining record to the accumulator. -/
def render_body (store : Store) : String :=
  store.foldl (fun body p => if p.2 = "" then body else body ++ p.2) ""

/-- `render_gpustat_body` (app.py lines 98-104): accumulate the records,
then apply the external `ansi2html` conversion exactly once. -/
def render_gpustat_body (conv : String → String) (store : Store) : String :=
  conv (render_body store)

/-- The response of `_handle_websocketmessage` to one text message. -/
inductive WsAction where
  | close
  | send (body : String)
deriving DecidableEq

/-- `_handle_websocketmessage` (app.py lines 167-173): the literal message
`"close"` closes the connection; any other text message is answered with
one message holding the rendered snapshot of the current store. -/
def handle_websocketmessage (conv : String → String) (store : Store)
    (data : String) : WsAction :=
  if data = "close" then .close
  else .send (render_gpustat_body conv store)

/-! ### Association-list lemmas for the store -/

theorem storeGet_storeSet_self (store : Store) (host v : String) :
    storeGet (storeSet store host v) host = some v := by
  induction store with
  | nil => simp [storeSet, storeGet]
  | cons p rest ih =>
    by_cases h : p.1 = host
    · simp [storeSet, storeGet, h]
    · simp [storeSet, storeGet, h, ih]

theorem storeGet_storeSet_ne (store : Store) (host v h' : String)
    (hne : h' ≠ host) :
    storeGet (storeSet store host v) h' = storeGet store h' := by
  have hne' : host ≠ h' := fun h => hne h.symm
  induction store with
  | nil => simp [storeSet, storeGet, hne']
  | cons p rest ih =>
    by_cases h : p.1 = host
    · subst h
      simp [storeSet, storeGet, hne']
    · by_cases h2 : p.1 = h'
      · simp [storeSet, storeGet, h, h2, hne]
      · simp [storeSet, storeGet, h, h2, ih]

theorem storeKeys_storeSet_of_mem (store : Store) (host v : String)
    (hmem : host ∈ storeKeys store) :
    storeKeys (storeSet store host v) = storeKeys store := by
  induction store with
  | nil => simp [storeKeys] at hmem
  | cons p rest ih =>
    by_cases h : p.1 = host
    · simp [storeSet, storeKeys, h]
    · have hmem' : host ∈ storeKeys rest := by
        simp [storeKeys] at hmem
        rcases hmem with h1 | h1
        · exact absurd h1.symm h
        · simpa [storeKeys] using h1
      simp [storeSet, storeKeys, h]
      simpa [storeKeys] using ih hmem'

theorem storeSet_of_not_mem (store : Store) (host v : String)
    (hmem : host ∉ storeKeys store) :
    storeSet store host v = store ++ [(host, v)] := by
  induction store with
  | nil => simp [storeSet]
  | cons p rest ih =>
    have h : p.1 ≠ host := by
      intro h
      exact hmem (by simp [storeKeys, h])
    have hmem' : host ∉ storeKeys rest := by
      intro h1
      exact hmem (by simp [storeKeys] at h1 ⊢; exact Or.inr h1)
    simp [storeSet, h, ih hmem']

/-! ### Lemmas about the monitor state machine -/

theorem run_client_step_failed (host : String) (store : Store)
    (ev : ClientEvent) :
    run_client_step host store .failed ev = (store, .failed) := by
  cases ev <;> rfl

theorem run_client_step_crashed (host : String) (store : Store)
    (ev : ClientEvent) :
    run_client_step host store .crashed ev = (store, .crashed) := by
  cases ev <;> rfl

theorem run_client_trace_failed (host : String) (store : Store)
    (evs : List ClientEvent) :
    run_client_trace host (store, .failed) evs = (store, .failed) := by
  induction evs with
  | nil => rfl
  | cons ev rest ih =>
    simp only [run_client_trace, List.foldl_cons]
    rw [run_client_step_failed]
    exact ih

theorem run_client_trace_crashed (host : String) (store : Store)
    (evs : List ClientEvent) :
    run_client_trace host (store, .crashed) evs = (store, .crashed) := by
  induction evs with
  | nil => rfl
  | cons ev rest ih =>
    simp only [run_client_trace, List.foldl_cons]
    rw [run_client_step_crashed]
    exact ih

theorem run_client_trace_cons (host : String) (p : Store × MonState)
    (ev : ClientEvent) (evs : List ClientEvent) :
    run_client_trace host p (ev :: evs)
      = run_client_trace host (run_client_step host p.1 p.2 ev) evs := by
  rfl

/-! ### Lemmas about rendering -/

theorem render_body_foldl (store : Store) :
    render_body store = store.foldl (fun body p => body ++ p.2) "" := by
  unfold render_body
  refine List.foldl_ext _ _ _ ?_
  intro body p _
  by_cases h : p.2 = ""
  · simp [h, String.append_empty]
  · simp [h]

theorem foldl_append_shift (l : Store) (acc : String) :
    l.foldl (fun body p => body ++ p.2) acc
      = acc ++ l.foldl (fun body p => body ++ p.2) "" := by
  induction l generalizing acc with
  | nil => simp [String.append_empty]
  | cons p rest ih =>
    simp only [List.foldl_cons]
    rw [ih (acc ++ p.2), ih ("" ++ p.2), String.empty_append,
      String.append_assoc]

theorem render_body_cons (p : String × String) (rest : Store) :
    render_body (p :: rest) = p.2 ++ render_body rest := by
  rw [render_body_foldl, render_body_foldl, List.foldl_cons,
    foldl_append_shift, String.empty_append]

theorem render_body_middle_empty (l1 l2 : Store) (host : String) :
    render_body (l1 ++ (host, "") :: l2) = render_body (l1 ++ l2) := by
  induction l1 with
  | nil => simp [render_body_cons, String.empty_append]
  | cons p rest ih => simp [render_body_cons, ih]

/-! ### Lemmas about startup initialization -/

theorem host_set_message_of_not_mem (store : Store) (host msg : String)
    (hmem : host ∉ storeKeys store) :
    host_set_message store host msg
      = store ++ [(host, hostPrefix host ++ msg ++ "\n")] := by
  unfold host_set_message hostPrefix
  rw [storeSet_of_not_mem _ _ _ hmem]

theorem spawn_clients_init_eq (hosts : List String) (store : Store)
    (hnd : hosts.Nodup) (hfresh : ∀ h ∈ hosts, h ∉ storeKeys store) :
    spawn_clients_init hosts store
      = store ++ hosts.map (fun h => (h, placeholderLine h)) := by
  induction hosts generalizing store with
  | nil => simp [spawn_clients_init]
  | cons h rest ih =>
    have hfirst : h ∉ storeKeys store := hfresh h (by simp)
    have hstep : host_set_message store h "Loading ..."
        = store ++ [(h, placeholderLine h)] :=
      host_set_message_of_not_mem store h "Loading ..." hfirst
    have hnd' : rest.Nodup := (List.nodup_cons.mp hnd).2
    have hfresh' : ∀ h' ∈ rest, h' ∉ storeKeys (store ++ [(h, placeholderLine h)]) := by
      intro h' hmem
      have hne : h' ≠ h := by
        intro heq
        exact (List.nodup_cons.mp hnd).1 (heq ▸ hmem)
      have : h' ∉ storeKeys store := hfresh h' (by simp [hmem])
      simp [storeKeys] at this ⊢
      exact ⟨this, hne⟩
    calc spawn_clients_init (h :: rest) store
        = spawn_clients_init rest (host_set_message store h "Loading ...") := rfl
      _ = spawn_clients_init rest (store ++ [(h, placeholderLine h)]) := by rw [hstep]
      _ = store ++ [(h, placeholderLine h)]
            ++ rest.map (fun h => (h, placeholderLine h)) := ih _ hnd' hfresh'
      _ = store ++ (h :: rest).map (fun h => (h, placeholderLine h)) := by simp

theorem storeGet_init_map (hosts : List String) (host : String)
    (hmem : host ∈ hosts) :
    storeGet (hosts.map (fun h => (h, placeholderLine h))) host
      = some (placeholderLine host) := by
  induction hosts with
  | nil => simp at hmem
  | cons h rest ih =>
    by_cases heq : h = host
    · simp [storeGet, heq]
    · have hmem' : host ∈ rest := by
        rcases List.mem_cons.mp hmem with h1 | h1
        · exact absurd h1.symm heq
        · exact h1
      simp [storeGet, heq, ih hmem']

/-! ### Claim theorems -/

/-- Claim C1: when a poll of host `h`'s status command completes with exit
status 0 and output `X`, the store record for `h` is overwritten to equal
`X` exactly, every other host's record is unchanged, and the monitor keeps
running. -/
theorem run_client_success_overwrites (host out h' : String) (store : Store)
    (hne : h' ≠ host) :
    storeGet (run_client_step host store .running (.poll 0 out)).1 host = some out
    ∧ storeGet (run_client_step host store .running (.poll 0 out)).1 h'
        = storeGet store h'
    ∧ (run_client_step host store .running (.poll 0 out)).2 = .running := by
  have hstep : run_client_step host store .running (.poll 0 out)
      = (storeSet store host out, .running) := by
    simp [run_client_step]
  rw [hstep]
  exact ⟨storeGet_storeSet_self store host out,
    storeGet_storeSet_ne store host out h' hne, rfl⟩

/-- Witness for `run_client_success_overwrites` at a concrete input. -/
theorem run_client_success_overwrites_witness :
    ("b" : String) ≠ "a"
    ∧ (storeGet (run_client_step "a" [("a", "p"), ("b", "q")] .running
          (.poll 0 "X")).1 "a" = some "X"
      ∧ storeGet (run_client_step "a" [("a", "p"), ("b", "q")] .running
          (.poll 0 "X")).1 "b" = storeGet [("a", "p"), ("b", "q")] "b"
      ∧ (run_client_step "a" [("a", "p"), ("b", "q")] .running
          (.poll 0 "X")).2 = .running) :=
  ⟨by decide,
    run_client_success_overwrites "a" "X" "b" [("a", "p"), ("b", "q")] (by decide)⟩

/-- Claim C2: a poll that completes with a nonzero exit status leaves the
whole store (in particular the polled host's record, placeholder included)
exactly as it was, and the monitor keeps running. -/
theorem run_client_nonzero_exit_keeps_record (host out : String)
    (store : Store) (exitStatus : Nat) (hec : exitStatus ≠ 0) :
    run_client_step host store .running (.poll exitStatus out) = (store, .running)
    ∧ storeGet (run_client_step host store .running (.poll exitStatus out)).1 host
        = storeGet store host := by
  have hstep : run_client_step host store .running (.poll exitStatus out)
      = (store, .running) := by
    simp [run_client_step, hec]
  exact ⟨hstep, by rw [hstep]⟩

/-- Witness for `run_client_nonzero_exit_keeps_record` at a concrete input. -/
theorem run_client_nonzero_exit_keeps_record_witness :
    (1 : Nat) ≠ 0
    ∧ (run_client_step "a" [("a", "p")] .running (.poll 1 "junk")
          = ([("a", "p")], .running)
      ∧ storeGet (run_client_step "a" [("a", "p")] .running (.poll 1 "junk")).1 "a"
          = storeGet [("a", "p")] "a") :=
  ⟨by decide, run_client_nonzero_exit_keeps_record "a" "junk" [("a", "p")] 1 (by decide)⟩

/-- Claim C3: when the session reports a disconnection during polling, the
host's record is overwritten once with the formatted error line (the white
host prefix followed by the red-colored error text), the monitor enters the
terminal `failed` state, and no subsequent sequence of events ever changes
the store or the state again. -/
theorem run_client_disconnect_terminal (host err : String) (store : Store)
    (evs : List ClientEvent) :
    (run_client_step host store .running (.disconnect err)).1
        = host_set_message store host (colored err "red")
    ∧ (run_client_step host store .running (.disconnect err)).2 = .failed
    ∧ storeGet (run_client_step host store .running (.disconnect err)).1 host
        = some (hostPrefix host ++ colored err "red" ++ "\n")
    ∧ run_client_trace host (run_client_step host store .running (.disconnect err)) evs
        = (host_set_message store host (colored err "red"), .failed) := by
  refine ⟨rfl, rfl, ?_, ?_⟩
  · show storeGet (host_set_message store host (colored err "red")) host = _
    unfold host_set_message hostPrefix
    exact storeGet_storeSet_self store host _
  · show run_client_trace host
        (host_set_message store host (colored err "red"), .failed) evs = _
    exact run_client_trace_failed host _ evs

/-- Counterexample to claim C4: a host unreachable at connect time raises a
socket-level error that the `except asyncssh.misc.DisconnectError` clause
of `run_client` does not catch. Starting from the startup store of host
`"b"`, that uncaught connect failure leaves the record at the
`"Loading ..."` placeholder — no error line is ever written — and the
coroutine dies in the `crashed` state, not the handler's `failed` state. -/
theorem run_client_connect_refused_cex :
    (run_client_trace "b" (spawn_clients_init ["b"] [], .running)
        [.other "connection refused"]).2 = .crashed
    ∧ (run_client_trace "b" (spawn_clients_init ["b"] [], .running)
        [.other "connection refused"]).2 ≠ .failed
    ∧ storeGet (run_client_trace "b" (spawn_clients_init ["b"] [], .running)
        [.other "connection refused"]).1 "b" = some (placeholderLine "b")
    ∧ storeGet (run_client_trace "b" (spawn_clients_init ["b"] [], .running)
        [.other "connection refused"]).1 "b"
        ≠ some (hostPrefix "b" ++ colored "connection refused" "red" ++ "\n") := by
  refine ⟨by decide, by decide, by decide, by decide⟩

/-- Claim C4 as amended: only a session-open failure surfacing as the
SSH-protocol-level `DisconnectError` — the one exception class the handler
of `run_client` catches — sends the monitor directly to the terminal
`failed` state with the formatted error line as the host's record,
persisting unchanged through every later event; a session-open failure of
any other exception class (in particular the socket-level error of a host
unreachable at connect time) is not caught: the store is not written at
all (the record keeps its prior value) and the coroutine terminates in the
`crashed` state, where every later event also leaves the store
unchanged. -/
theorem run_client_open_failure_dichotomy (host err : String) (store : Store)
    (evs : List ClientEvent) :
    (run_client_trace host (store, .running) (.disconnect err :: evs)
        = (host_set_message store host (colored err "red"), .failed)
      ∧ storeGet (run_client_trace host (store, .running) (.disconnect err :: evs)).1 host
          = some (hostPrefix host ++ colored err "red" ++ "\n"))
    ∧ run_client_trace host (store, .running) (.other err :: evs)
        = (store, .crashed) := by
  have htr : run_client_trace host (store, .running) (.disconnect err :: evs)
      = (host_set_message store host (colored err "red"), .failed) := by
    rw [run_client_trace_cons]
    exact run_client_trace_failed host _ evs
  refine ⟨⟨htr, ?_⟩, ?_⟩
  · rw [htr]
    unfold host_set_message hostPrefix
    exact storeGet_storeSet_self store host _
  · rw [run_client_trace_cons]
    exact run_client_trace_crashed host store evs

/-- Claim C5: immediately after startup of a non-empty configured host list
(distinct hosts), every host has the placeholder record, the keys of the
store are exactly the host list in its order, and the render accumulator
is the concatenation of the hosts' placeholder lines in that order. -/
theorem spawn_clients_placeholders (hosts : List String)
    (_hne : hosts ≠ []) (hnd : hosts.Nodup) :
    (∀ h ∈ hosts, storeGet (spawn_clients_init hosts []) h = some (placeholderLine h))
    ∧ storeKeys (spawn_clients_init hosts []) = hosts
    ∧ render_body (spawn_clients_init hosts [])
        = (hosts.map placeholderLine).foldl (fun a b => a ++ b) "" := by
  have heq : spawn_clients_init hosts []
      = hosts.map (fun h => (h, placeholderLine h)) := by
    have := spawn_clients_init_eq hosts [] hnd (by intro h _; simp [storeKeys])
    simpa using this
  refine ⟨?_, ?_, ?_⟩
  · intro h hmem
    rw [heq]
    exact storeGet_init_map hosts h hmem
  · rw [heq]
    unfold storeKeys
    rw [List.map_map]
    exact List.map_id hosts
  · rw [heq, render_body_foldl]
    simp [List.foldl_map]

/-- Witness for `spawn_clients_placeholders` at a concrete input. -/
theorem spawn_clients_placeholders_witness :
    (["a", "b"] : List String) ≠ [] ∧ (["a", "b"] : List String).Nodup
    ∧ ((∀ h ∈ (["a", "b"] : List String),
          storeGet (spawn_clients_init ["a", "b"] []) h = some (placeholderLine h))
      ∧ storeKeys (spawn_clients_init ["a", "b"] []) = ["a", "b"]
      ∧ render_body (spawn_clients_init ["a", "b"] [])
          = ((["a", "b"] : List String).map placeholderLine).foldl
              (fun a b => a ++ b) "") :=
  ⟨by decide, by decide, spawn_clients_placeholders ["a", "b"] (by decide) (by decide)⟩

/-- Claim C6: the render accumulator concatenates the stores' current
records in store order, and every write a monitor can perform to a
registered host (a successful-poll overwrite or a `host_set_message`
placeholder or error write) preserves the key sequence, so store order
always equals first-registration order whatever mixture of pending,
succeeded and failed hosts the store holds. -/
theorem render_order_is_registration_order (store : Store) (host v : String)
    (hmem : host ∈ storeKeys store) :
    render_body store = (store.map Prod.snd).foldl (fun a b => a ++ b) ""
    ∧ storeKeys (storeSet store host v) = storeKeys store
    ∧ storeKeys (host_set_message store host v) = storeKeys store := by
  refine ⟨?_, storeKeys_storeSet_of_mem store host v hmem, ?_⟩
  · rw [render_body_foldl]
    simp [List.foldl_map]
  · unfold host_set_message
    exact storeKeys_storeSet_of_mem store host _ hmem

/-- Witness for `render_order_is_registration_order` at a concrete input. -/
theorem render_order_is_registration_order_witness :
    ("a" : String) ∈ storeKeys [("a", "ra"), ("b", "rb")]
    ∧ (render_body [("a", "ra"), ("b", "rb")]
          = ([("a", "ra"), ("b", "rb")].map Prod.snd).foldl (fun a b => a ++ b) ""
      ∧ storeKeys (storeSet [("a", "ra"), ("b", "rb")] "a" "v")
          = storeKeys [("a", "ra"), ("b", "rb")]
      ∧ storeKeys (host_set_message [("a", "ra"), ("b", "rb")] "a" "v")
          = storeKeys [("a", "ra"), ("b", "rb")]) :=
  ⟨by decide, render_order_is_registration_order [("a", "ra"), ("b", "rb")] "a" "v"
    (by decide)⟩

/-- Counterexample to claim C7: a successful poll stores the command's raw
stdout, so host `"a"`'s non-empty record `"GPU OK\n"` reaches the render
accumulator verbatim: it does not start with the per-host prefix — indeed
it does not even contain the character `a` — and the accumulator equals
the raw output with no prefix added. -/
theorem render_success_record_no_prefix_cex :
    storeGet ((run_client_step "a" (spawn_clients_init ["a"] []) .running
        (.poll 0 "GPU OK\n")).1) "a" = some "GPU OK\n"
    ∧ ¬ hasHostPrefix "a" "GPU OK\n"
    ∧ (∀ c ∈ ("GPU OK\n").data, c ≠ 'a')
    ∧ render_body ((run_client_step "a" (spawn_clients_init ["a"] []) .running
        (.poll 0 "GPU OK\n")).1) = "GPU OK\n" := by
  refine ⟨by decide, ?_, by decide, by decide⟩
  rintro ⟨rest, hr⟩
  have hlen := congrArg String.length hr
  rw [String.length_append] at hlen
  have h1 : ("GPU OK\n").length = 7 := by decide
  have h2 : (hostPrefix "a").length = 13 := by decide
  omega

/-- Claim C7 as amended: records written through `host_set_message` (the
startup placeholder and the terminal error line) do carry the per-host
prefix identifying the host, while a successful poll stores the command's
stdout verbatim, with no per-host prefix added. -/
theorem host_set_message_prefix_success_raw (store : Store)
    (host msg out : String) :
    storeGet (host_set_message store host msg) host
        = some (hostPrefix host ++ msg ++ "\n")
    ∧ hasHostPrefix host (hostPrefix host ++ msg ++ "\n")
    ∧ (run_client_step host store .running (.poll 0 out)).1 = storeSet store host out
    ∧ storeGet (storeSet store host out) host = some out := by
  refine ⟨?_, ⟨msg ++ "\n", String.append_assoc _ _ _⟩, by simp [run_client_step],
    storeGet_storeSet_self store host out⟩
  unfold host_set_message hostPrefix
  exact storeGet_storeSet_self store host _

/-- Claim C8: an inbound viewer message equal to the literal `"close"`
closes the connection without sending a snapshot, and any other text
message is answered by exactly the rendered snapshot of the current store,
independent of the message's content. -/
theorem websocket_close_or_refresh (conv : String → String) (store : Store)
    (m : String) (hm : m ≠ "close") :
    handle_websocketmessage conv store "close" = WsAction.close
    ∧ handle_websocketmessage conv store m
        = WsAction.send (render_gpustat_body conv store) := by
  constructor
  · simp [handle_websocketmessage]
  · simp [handle_websocketmessage, hm]

/-- Witness for `websocket_close_or_refresh` at a concrete input. -/
theorem websocket_close_or_refresh_witness :
    ("gpustat" : String) ≠ "close"
    ∧ (handle_websocketmessage id [("a", "r")] "close" = WsAction.close
      ∧ handle_websocketmessage id [("a", "r")] "gpustat"
          = WsAction.send (render_gpustat_body id [("a", "r")])) :=
  ⟨by decide, websocket_close_or_refresh id [("a", "r")] "gpustat" (by decide)⟩

/-- Claim C10: a successful poll with empty output stores the empty string
as the host's record, an empty record contributes nothing to the render
accumulator wherever it sits in the store (no placeholder, no prefix
line), and a later write of non-empty content restores a visible record. -/
theorem empty_output_stored_and_hidden (host X : String)
    (store l1 l2 : Store) :
    run_client_step host store .running (.poll 0 "")
        = (storeSet store host "", .running)
    ∧ storeGet (storeSet store host "") host = some ""
    ∧ render_body (l1 ++ (host, "") :: l2) = render_body (l1 ++ l2)
    ∧ storeGet (storeSet (storeSet store host "") host X) host = some X :=
  ⟨by simp [run_client_step], storeGet_storeSet_self store host "",
    render_body_middle_empty l1 l2 host,
    storeGet_storeSet_self (storeSet store host "") host X⟩

end GpustatWeb
